import Mathlib

/-!
Shallow embedding of the WrenAI ask indexing pipeline
(src/wren-ai-service/src/pipelines/ask/indexing_pipeline.py) and of the
semantics description pipeline
(src/wren-ai-service/src/pipelines/generation/semantics_description.py),
with theorems checking the natural-language specification against it.

Python machine model: dictionary fields that the data model declares
mandatory are plain structure fields; optional dictionary keys are `Option`
fields; Python exceptions that the translated code can raise are the
`PyErr` outcomes of `Except`-valued functions.  Python dictionaries whose
insertion order matters are association lists with last-binding-wins lookup.
-/

deriving instance DecidableEq for Except

/-- Python exception outcomes raised by the embedded code. -/
inductive PyErr where
  | keyError (key : String)
  | indexError
  | typeError
  | valueError (msg : String)
deriving DecidableEq

/-- Python `xs[i]` on a list: `IndexError` when out of range. -/
def pyListGet {α : Type} (xs : List α) (i : Nat) : Except PyErr α :=
  match xs.get? i with
  | some x => .ok x
  | none => .error .indexError

/-- Python `d.get(k)` on an insertion-ordered dictionary represented as an
association list: the last binding of a key wins, as a repeated Python
assignment to the same key overwrites the earlier value. -/
def pyDictGet? {α : Type} (d : List (String × α)) (k : String) : Option α :=
  (d.reverse.find? (fun p => p.1 == k)).map (fun p => p.2)

/-- Python `k in d` on a dictionary. -/
def pyDictHasKey {α : Type} (d : List (String × α)) (k : String) : Bool :=
  d.any (fun p => p.1 == k)

/-- Python `d[k]` on a dictionary: `KeyError` when the key is absent. -/
def pyDictGet {α : Type} (d : List (String × α)) (k : String) : Except PyErr α :=
  match pyDictGet? d k with
  | some v => .ok v
  | none => .error (.keyError k)

/-- Python `d[k] = v` on a dictionary: overwrite the binding in place when
the key exists, append a new binding otherwise. -/
def pyDictInsert {α : Type} (d : List (String × α)) (k : String) (v : α) :
    List (String × α) :=
  if pyDictHasKey d k then
    d.map (fun p => if p.1 == k then (k, v) else p)
  else
    d ++ [(k, v)]

/-- Worker for `pySplit`: scan left to right, cutting a token whenever the
separator is a prefix of the remainder and skipping it; `fuel` bounds the
number of steps (each step consumes at least one character, so a fuel of
the input length suffices). -/
def pySplitAux (sep : List Char) : Nat → List Char → List Char → List (List Char)
  | 0, cur, l => [cur.reverse ++ l]
  | fuel + 1, cur, l =>
    match l with
    | [] => [cur.reverse]
    | c :: cs =>
      if sep.isPrefixOf (c :: cs) then
        cur.reverse :: pySplitAux sep fuel [] ((c :: cs).drop sep.length)
      else
        pySplitAux sep fuel (c :: cur) cs

/-- Python `s.split(sep)` for a non-empty separator: split on
non-overlapping occurrences of `sep`, left to right, keeping empty pieces.
(Behaves like `String.splitOn`, re-implemented by structural recursion so
that the kernel can evaluate it.) -/
def pySplit (s sep : String) : List String :=
  if sep == "" then [s]
  else (pySplitAux sep.toList (s.toList.length + 1) [] s.toList).map String.mk

/-- Python `s.upper()` (ASCII as used by the repository); kernel-evaluable
counterpart of `String.toUpper`. -/
def pyToUpper (s : String) : String :=
  String.mk (s.toList.map Char.toUpper)

/-- `orjson.dumps` of a flat string-valued JSON object, decoded to text:
compact rendering with no spaces, e.g. `{"k":"v"}`.  (The repository only
dumps flat `properties` maps in DDL comments.) -/
def jsonDumps (ps : List (String × String)) : String :=
  "\x7b" ++
    String.intercalate ","
      (ps.map (fun p => "\"" ++ p.1 ++ "\":\"" ++ p.2 ++ "\"")) ++
    "\x7d"

/-- A single-quote character, used by Python `str()` of a dictionary. -/
def pyQuote : String := String.singleton (Char.ofNat 39)

/-- Python `str()` of a flat string-valued dictionary: single-quoted keys
and values, `", "` separators and `": "` after each key, e.g.
`{'k': 'v'}`.  (String escaping is not modelled; the repository never puts
quote characters in these values.) -/
def pyStrDict (ps : List (String × String)) : String :=
  "\x7b" ++
    String.intercalate ", "
      (ps.map (fun p =>
        pyQuote ++ p.1 ++ pyQuote ++ ": " ++ pyQuote ++ p.2 ++ pyQuote)) ++
    "\x7d"

/-! ## Data model (spec section 3, indexing_pipeline.py) -/

/-- A column of an MDL model.  `name` and `type` are mandatory
(`column["name"]`, `column["type"]`); the rest are optional keys. -/
structure Column where
  name : String
  type : String
  properties : Option (List (String × String))
  relationship : Option String
  expression : Option String
  isCalculated : Option Bool
deriving DecidableEq

/-- An MDL model. `DDLConverter.run` reads `model["name"]`,
`model["columns"]` and `model["primaryKey"]` unconditionally and defaults
`properties` to the empty dictionary. -/
structure Model where
  name : String
  properties : Option (List (String × String))
  columns : List Column
  primaryKey : String
deriving DecidableEq

/-- An MDL relationship: `{models, joinType, condition}`. -/
structure Relationship where
  models : List String
  joinType : String
  condition : String
deriving DecidableEq

/-- A dimension entry of an MDL metric. -/
structure MetricDimension where
  name : String
  type : String
deriving DecidableEq

/-- A measure entry of an MDL metric. -/
structure MetricMeasure where
  name : String
  type : String
  expression : String
deriving DecidableEq

/-- An MDL metric: `{name, baseObject, dimension, measure}`. -/
structure Metric where
  name : String
  baseObject : String
  dimension : List MetricDimension
  measure : List MetricMeasure
deriving DecidableEq

/-- An MDL view: `{name, statement, properties?}`. -/
structure View where
  name : String
  statement : String
  properties : Option (List (String × String))
deriving DecidableEq

/-- The validated MDL root aggregate. -/
structure MDL where
  models : List Model
  relationships : List Relationship
  metrics : List Metric
  views : List View
deriving DecidableEq

/-- A haystack `Document(id=str(i), content=...)` as produced by the
converters; the embedding vector of a written document is external and not
modelled. -/
structure CompiledDocument where
  id : String
  content : String
deriving DecidableEq

/-! ## DDLConverter (indexing_pipeline.py lines 122-306) -/

/-- One line of a CREATE TABLE body for a non-relationship column
(indexing_pipeline.py lines 201-220): optional `properties` comment,
optional calculated-field comment (raising `KeyError` when `isCalculated`
is truthy but `expression` is absent), then `<name> <type>` with a
` PRIMARY KEY` suffix when the column name equals the model primary key. -/
def columnDDL (m : Model) (c : Column) : Except PyErr String := do
  let comment := match c.properties with
    | some ps => "-- " ++ jsonDumps ps ++ "\n  "
    | none => ""
  let comment ← match c.isCalculated with
    | some true =>
      match c.expression with
      | some expr =>
        pure (comment ++ "-- This column is a Calculated Field\n  -- column expression: "
          ++ expr ++ "\n  ")
      | none => Except.error (PyErr.keyError "expression")
    | _ => pure comment
  let columnDdl := comment ++ c.name ++ " " ++ c.type
  pure (if c.name == m.primaryKey then columnDdl ++ " PRIMARY KEY" else columnDdl)

/-- The plain-column lines of a model's CREATE TABLE body, in column order,
skipping columns that carry a `relationship` key
(indexing_pipeline.py lines 200-220). -/
def modelColumnLines (m : Model) : List Column → Except PyErr (List String)
  | [] => .ok []
  | c :: cs =>
    if c.relationship.isNone then do
      let line ← columnDDL m c
      let rest ← modelColumnLines m cs
      pure (line :: rest)
    else
      modelColumnLines m cs

/-- The foreign-key constraint (if any) that one relationship contributes
to the table named `tableName`, translating the `if/elif/elif` chain of
indexing_pipeline.py lines 223-252 including its Python evaluation order:
list indexing may raise `IndexError` and the primary-key map lookup may
raise `KeyError`. -/
def fkForRel (pkMap : List (String × String)) (tableName : String)
    (r : Relationship) : Except PyErr (Option String) := do
  let m0 ← pyListGet r.models 0
  if tableName == m0 && pyToUpper r.joinType == "MANY_TO_ONE" then do
    let relatedTable ← pyListGet r.models 1
    let lhs ← pyListGet (pySplit r.condition " = ") 0
    let fkColumn ← pyListGet (pySplit lhs ".") 1
    let pk ← pyDictGet pkMap relatedTable
    pure (some ("FOREIGN KEY (" ++ fkColumn ++ ") REFERENCES "
      ++ relatedTable ++ "(" ++ pk ++ ")"))
  else do
    let m1 ← pyListGet r.models 1
    if tableName == m1 && pyToUpper r.joinType == "ONE_TO_MANY" then do
      let relatedTable := m0
      let rhs ← pyListGet (pySplit r.condition " = ") 1
      let fkColumn ← pyListGet (pySplit rhs ".") 1
      let pk ← pyDictGet pkMap relatedTable
      pure (some ("FOREIGN KEY (" ++ fkColumn ++ ") REFERENCES "
        ++ relatedTable ++ "(" ++ pk ++ ")"))
    else
      if r.models.contains tableName && pyToUpper r.joinType == "ONE_TO_ONE" then do
        let index := r.models.indexOf tableName
        let relatedTable ← pyListGet (r.models.filter (fun m => m != tableName)) 0
        let part ← pyListGet (pySplit r.condition " = ") index
        let fkColumn ← pyListGet (pySplit part ".") 1
        let pk ← pyDictGet pkMap relatedTable
        pure (some ("FOREIGN KEY (" ++ fkColumn ++ ") REFERENCES "
          ++ relatedTable ++ "(" ++ pk ++ ")"))
      else
        pure none

/-- The foreign-key constraint lines appended to a table's body, one pass
over the relationship list in order (indexing_pipeline.py lines 222-252). -/
def relationshipLines (pkMap : List (String × String)) (tableName : String) :
    List Relationship → Except PyErr (List String)
  | [] => .ok []
  | r :: rs => do
    let fk ← fkForRel pkMap tableName r
    let rest ← relationshipLines pkMap tableName rs
    match fk with
    | some s => pure (s :: rest)
    | none => pure rest

/-- The full `columns_ddl` list of one model's CREATE TABLE body: plain
column lines first, then foreign-key constraint lines in relationship-list
order. -/
def tableColumnsDDL (pkMap : List (String × String)) (rels : List Relationship)
    (m : Model) : Except PyErr (List String) := do
  let cols ← modelColumnLines m m.columns
  let fks ← relationshipLines pkMap m.name rels
  pure (cols ++ fks)

/-- The leading comment of a model's CREATE TABLE block
(indexing_pipeline.py lines 254-259). -/
def modelComment (m : Model) : String :=
  match m.properties with
  | some ps => "\n/* " ++ jsonDumps ps ++ " */\n"
  | none => ""

/-- One model's CREATE TABLE block (indexing_pipeline.py lines 261-265). -/
def tableDDL (pkMap : List (String × String)) (rels : List Relationship)
    (m : Model) : Except PyErr String := do
  let lines ← tableColumnsDDL pkMap rels m
  pure (modelComment m ++ "CREATE TABLE " ++ m.name ++ " (\n  "
    ++ String.intercalate ",\n  " lines ++ "\n);")

/-- The primary-key map `{model["name"]: model["primaryKey"]}` built across
all models (indexing_pipeline.py line 196). -/
def primaryKeysMap (models : List Model) : List (String × String) :=
  models.map (fun m => (m.name, m.primaryKey))

/-- The per-model loop of `_convert_models_and_relationships`, appending
one CREATE TABLE command per model in input order. -/
def convertModelsLoop (pkMap : List (String × String))
    (rels : List Relationship) : List Model → Except PyErr (List String)
  | [] => .ok []
  | m :: ms => do
    let cmd ← tableDDL pkMap rels m
    let rest ← convertModelsLoop pkMap rels ms
    pure (cmd :: rest)

/-- `DDLConverter._convert_models_and_relationships`
(indexing_pipeline.py lines 190-268). -/
def convertModelsAndRelationships (models : List Model)
    (relationships : List Relationship) : Except PyErr (List String) :=
  convertModelsLoop (primaryKeysMap models) relationships models

/-- One metric's synthetic CREATE TABLE block
(indexing_pipeline.py lines 280-304). -/
def metricDDL (metric : Metric) : String :=
  let dims := metric.dimension.map (fun d =>
    "-- This column is a dimension\n  " ++ d.name ++ " " ++ d.type)
  let meas := metric.measure.map (fun ms =>
    "-- This column is a measure\n  -- expression: " ++ ms.expression
      ++ "\n  " ++ ms.name ++ " " ++ ms.type)
  let comment := "\n/* This table is a metric */\n/* Metric Base Object: "
    ++ metric.baseObject ++ " */\n"
  comment ++ "CREATE TABLE " ++ metric.name ++ " (\n  "
    ++ String.intercalate ",\n  " (dims ++ meas) ++ "\n);"

/-- `DDLConverter._convert_metrics` (indexing_pipeline.py lines 277-306). -/
def convertMetrics (metrics : List Metric) : List String :=
  metrics.map metricDDL

/-- One view's DDL block (indexing_pipeline.py lines 271-273): the view's
`properties` dictionary is rendered with Python `str()`, or the empty
string when absent. -/
def viewDDL (v : View) : String :=
  let properties := match v.properties with
    | some ps => pyStrDict ps
    | none => ""
  "/* " ++ properties ++ " */\nCREATE VIEW " ++ v.name ++ "\nAS ("
    ++ v.statement ++ ")"

/-- `DDLConverter._convert_views` (indexing_pipeline.py lines 270-275). -/
def convertViews (views : List View) : List String :=
  views.map viewDDL

/-- The per-model normalization of `DDLConverter.run`
(indexing_pipeline.py lines 137-163): every optional column key is copied
when present, and the semantics model always carries a `properties` key,
defaulting to the empty dictionary. -/
def toSemanticsModel (m : Model) : Model :=
  { name := m.name
    properties := some (match m.properties with
      | some ps => ps
      | none => [])
    columns := m.columns
    primaryKey := m.primaryKey }

/-- Python `enumerate` combined with `Document(id=str(i), ...)`
construction (indexing_pipeline.py lines 174-187 and 105-119). -/
def enumerateDocs : Nat → List String → List CompiledDocument
  | _, [] => []
  | i, c :: cs => ⟨toString i, c⟩ :: enumerateDocs (i + 1) cs

/-- `DDLConverter.run` (indexing_pipeline.py lines 124-187): normalize the
models, compile models-and-relationships, then metrics, then views, and
enumerate the resulting commands into documents. -/
def ddlConverterRun (mdl : MDL) : Except PyErr (List CompiledDocument) := do
  let semanticsModels := mdl.models.map toSemanticsModel
  let ddlCommands ← convertModelsAndRelationships semanticsModels mdl.relationships
  pure (enumerateDocs 0
    (ddlCommands ++ convertMetrics mdl.metrics ++ convertViews mdl.views))

/-! ## ViewConverter (indexing_pipeline.py lines 70-119) -/

/-- The `question` field of a converted view: present only when the view
has a `properties` dictionary containing a `question` key, else `""`. -/
def viewQuestion (view : View) : String :=
  match view.properties with
  | some props =>
    if pyDictHasKey props "question" then
      match pyDictGet? props "question" with
      | some q => q
      | none => ""
    else ""
  | none => ""

/-- The `description` field of a converted view, defaulting like
`viewQuestion`. -/
def viewDescription (view : View) : String :=
  match view.properties with
  | some props =>
    if pyDictHasKey props "description" then
      match pyDictGet? props "description" with
      | some d => d
      | none => ""
    else ""
  | none => ""

/-- `ViewConverter.run._format` (indexing_pipeline.py lines 84-99). -/
def formatView (view : View) : String :=
  pyStrDict [("question", viewQuestion view),
             ("description", viewDescription view),
             ("statement", view.statement)]

/-- `ViewConverter.run` (indexing_pipeline.py lines 82-119). -/
def viewConverterRun (views : List View) : List CompiledDocument :=
  let convertedViews := match views with
    | [] => []
    | _ => views.map formatView
  enumerateDocs 0 convertedViews

/-! ## DocumentCleaner and the orchestrated run
(indexing_pipeline.py lines 23-42 and 309-354) -/

/-- `DocumentCleaner.run._clear_documents` (indexing_pipeline.py lines
35-38): enumerate ids `"0".."count-1"` and delete the stored documents
bearing those ids; no deletion call when the store is empty. -/
def clearDocuments (store : List CompiledDocument) : List CompiledDocument :=
  let ids := (List.range store.length).map toString
  if ids.isEmpty then store
  else store.filter (fun d => !(ids.contains d.id))

/-- `DocumentWriter` with `DuplicatePolicy.OVERWRITE`: replace a stored
document with the same id in place, append new ids. -/
def writeDocuments (store : List CompiledDocument)
    (docs : List CompiledDocument) : List CompiledDocument :=
  docs.foldl (fun st d =>
    if st.any (fun e => e.id == d.id) then
      st.map (fun e => if e.id == d.id then d else e)
    else
      st ++ [d]) store

/-- The orchestrated indexing run over the pipeline graph of
`Indexing.__init__` (indexing_pipeline.py lines 309-354): the cleaner
clears both stores, then the validator parses, then the two converter
branches compile and write to their stores.  `parsedMdl` is the outcome of
`orjson.loads` on the raw input together with the record decoding that the
converters' dictionary accesses perform: `none` is the
`json.JSONDecodeError` path, on which `MDLValidator.run` raises
`ValueError("Invalid JSON: ...")` (detail message elided).  The result pairs
the final store states with the raised error, if any. -/
def indexingRun (parsedMdl : Option MDL)
    (ddlStore viewStore : List CompiledDocument) :
    (List CompiledDocument × List CompiledDocument) × Option PyErr :=
  let ddlStore := clearDocuments ddlStore
  let viewStore := clearDocuments viewStore
  match parsedMdl with
  | none => ((ddlStore, viewStore), some (PyErr.valueError "Invalid JSON"))
  | some mdl =>
    match ddlConverterRun mdl with
    | .error e => ((ddlStore, viewStore), some e)
    | .ok ddlDocs =>
      let viewDocs := viewConverterRun mdl.views
      ((writeDocuments ddlStore ddlDocs, writeDocuments viewStore viewDocs),
        none)

/-! ## MDLValidator (indexing_pipeline.py lines 45-67) -/

/-- A parsed JSON value, the outcome of `orjson.loads`. -/
inductive JValue where
  | null
  | bool (b : Bool)
  | num (n : Int)
  | str (s : String)
  | arr (xs : List JValue)
  | obj (fields : List (String × JValue))

/-- Python equality of a JSON value against a string key, as used by
`key in list`: only an equal string compares equal. -/
def jStrEq : JValue → String → Bool
  | .str s, k => s == k
  | _, _ => false

/-- Python substring containment, as `key in s` performs on a string. -/
def pySubstr (s key : String) : Bool :=
  s.toList.tails.any (fun t => key.toList.isPrefixOf t)

/-- Python `key not in mdl_json`, negated: membership of a string key in a
parsed JSON value.  Dictionaries test key presence, lists test element
equality, strings test substring containment; other values raise
`TypeError`. -/
def jContains (v : JValue) (key : String) : Except PyErr Bool :=
  match v with
  | .obj fields => .ok (pyDictHasKey fields key)
  | .arr xs => .ok (xs.any (fun x => jStrEq x key))
  | .str s => .ok (pySubstr s key)
  | _ => .error .typeError

/-- Python `mdl_json[key] = value`: item assignment succeeds only on a
dictionary, raising `TypeError` otherwise. -/
def jSetItem (v : JValue) (key : String) (val : JValue) : Except PyErr JValue :=
  match v with
  | .obj fields => .ok (.obj (pyDictInsert fields key val))
  | _ => .error .typeError

/-- One `if key not in mdl_json: mdl_json[key] = []` statement of
`MDLValidator.run`. -/
def ensureKey (mdlJson : JValue) (key : String) : Except PyErr JValue := do
  let present ← jContains mdlJson key
  if present then pure mdlJson else jSetItem mdlJson key (.arr [])

/-- `MDLValidator.run` (indexing_pipeline.py lines 52-67): `none` stands
for an input `orjson.loads` rejects, on which the method raises
`ValueError("Invalid JSON: ...")` (detail message elided); a parsed value
is then defaulted key by key. -/
def mdlValidatorRun (parsed : Option JValue) : Except PyErr JValue := do
  match parsed with
  | none => Except.error (PyErr.valueError "Invalid JSON")
  | some mdlJson => do
    let mdlJson ← ensureKey mdlJson "models"
    let mdlJson ← ensureKey mdlJson "views"
    let mdlJson ← ensureKey mdlJson "relationships"
    let mdlJson ← ensureKey mdlJson "metrics"
    pure mdlJson

/-! ## Semantics description pipeline (semantics_description.py) -/

/-- `properties` record attached to picked models and columns
(semantics_description.py lines 30-34 and 44-47). -/
structure PickedProperties where
  description : String
  displayAlias : String
deriving DecidableEq

/-- A column of a picked model (semantics_description.py lines 27-38). -/
structure PickedColumn where
  name : String
  type : String
  properties : PickedProperties
deriving DecidableEq

/-- A picked model (semantics_description.py lines 40-48). -/
structure PickedModel where
  name : String
  columns : List PickedColumn
  properties : PickedProperties
deriving DecidableEq

/-- A column of an MDL model as read by `picked_models`: `name`, `type`
and `properties` are accessed unconditionally, `relationship` is an
optional key. -/
structure SDColumn where
  name : String
  type : String
  properties : List (String × String)
  relationship : Option String
deriving DecidableEq

/-- An MDL model as read by `picked_models`. -/
structure SDModel where
  name : String
  columns : List SDColumn
  properties : List (String × String)
deriving DecidableEq

/-- The MDL root as read by `picked_models` (`mdl.get("models", [])`). -/
structure SDMdl where
  models : List SDModel
deriving DecidableEq

/-- `picked_models.relation_filter` (semantics_description.py lines 23-24):
keep columns without a `relationship` key. -/
def relation_filter (column : SDColumn) : Bool :=
  column.relationship.isNone

/-- `picked_models.column_formatter` (semantics_description.py lines
26-38). -/
def column_formatter (columns : List SDColumn) : List PickedColumn :=
  (columns.filter relation_filter).map (fun column =>
    { name := column.name
      type := column.type
      properties :=
        { description := (pyDictGet? column.properties "description").getD ""
          displayAlias := (pyDictGet? column.properties "displayName").getD "" } })

/-- `picked_models.extract` (semantics_description.py lines 40-48). -/
def extractModel (model : SDModel) : PickedModel :=
  { name := model.name
    columns := column_formatter model.columns
    properties :=
      { description := (pyDictGet? model.properties "description").getD ""
        displayAlias := (pyDictGet? model.properties "displayName").getD "" } }

/-- `picked_models` (semantics_description.py lines 21-54): extract the
models of the MDL whose name is among the selected ones, in input order. -/
def picked_models (mdl : SDMdl) (selected_models : List String) :
    List PickedModel :=
  (mdl.models.filter (fun model => selected_models.contains model.name)).map
    extractModel

/-- `properties` of a generated column or model, per the `json_schema`
response format the pipeline enforces on the generator
(semantics_description.py lines 114-141). -/
structure GenProperties where
  description : String
deriving DecidableEq

/-- A generated column (`ModelColumns` of the response schema). -/
structure GenColumn where
  name : String
  properties : GenProperties
deriving DecidableEq

/-- A generated model (`SemanticModel` of the response schema). -/
structure GenModel where
  name : String
  columns : List GenColumn
  properties : GenProperties
deriving DecidableEq

/-- The generator reply (`SemanticResult` of the response schema). -/
structure GenResult where
  models : List GenModel
deriving DecidableEq

/-- The dictionary comprehension `{model["name"]: model for model in ms}`. -/
def dictByName {α : Type} (nameOf : α → String) (ms : List α) :
    List (String × α) :=
  ms.foldl (fun acc m => pyDictInsert acc (nameOf m) m) []

/-- `normalize` (semantics_description.py lines 78-94): `parsedReply` is
the outcome of `orjson.loads` on the newline-normalized reply text; on a
`JSONDecodeError` (`none`) the wrapper substitutes `{"models": []}`.  The
models of the resulting value are keyed by name.  (Named `normalize` in the
source; renamed here because Mathlib already declares `normalize`.) -/
def normalizeReply (parsedReply : Option GenResult) : List (String × GenModel) :=
  let normalized := match parsedReply with
    | some textDict => textDict
    | none => { models := [] }
  dictByName GenModel.name normalized.models

/-- `output._filter` (semantics_description.py lines 99-102): keep the
enriched columns whose name occurs among the picked model's columns. -/
def outputFilter (enriched : List GenColumn) (columns : List PickedColumn) :
    List GenColumn :=
  let validColumns := columns.map (fun col => col.name)
  enriched.filter (fun col => validColumns.contains col.name)

/-- `output` (semantics_description.py lines 97-110): restrict the
normalized generator reply to the picked models and filter each surviving
entry's columns to the picked model's column names. -/
def output (normalizeD : List (String × GenModel))
    (pickedModels : List PickedModel) : List (String × GenModel) :=
  let models := dictByName PickedModel.name pickedModels
  normalizeD.filterMap (fun p =>
    match pyDictGet? models p.1 with
    | some pickedModel =>
      some (p.1, { p.2 with columns := outputFilter p.2.columns pickedModel.columns })
    | none => none)

/-! ## Concrete inputs shared by witnesses and counterexamples -/

/-- The single-model MDL of the end-to-end scenario: one model `customers`
with primary key `id` and the single column `id int`, and no
relationships, metrics or views. -/
def customersOnlyMDL : MDL :=
  { models := [{ name := "customers", properties := none,
                 columns := [{ name := "id", type := "int", properties := none,
                               relationship := none, expression := none,
                               isCalculated := none }],
                 primaryKey := "id" }]
    relationships := []
    metrics := []
    views := [] }

/-- A DDL store holding one document written by a previous run. -/
def staleDdlStore : List CompiledDocument := [{ id := "0", content := "stale ddl" }]

/-- A view store holding one document written by a previous run. -/
def staleViewStore : List CompiledDocument := [{ id := "0", content := "stale view" }]

/-- A MANY_TO_ONE relationship whose condition splits into three dotted
references rather than two. -/
def threePartRel : Relationship :=
  { models := ["orders", "customers"], joinType := "MANY_TO_ONE",
    condition := "orders.a = customers.b = extra.c" }

/-! ## C3 -/

/-- C3 (counterexample): compiling the one-model `customers` MDL does not
produce a document whose content is exactly
`CREATE TABLE customers (\n  id int PRIMARY KEY\n);`: since
`DDLConverter.run` always installs a `properties` key (defaulting to the
empty dictionary), the block is prefixed by a `\n/* {} */\n` comment. -/
theorem c3_counterexample :
    ddlConverterRun customersOnlyMDL ≠
      .ok [{ id := "0",
             content := "CREATE TABLE customers (\n  id int PRIMARY KEY\n);" }] := by
  decide

/-- C3 (amended): compiling the one-model `customers` MDL produces exactly
one document with id `"0"` whose content is
`\n/* {} */\nCREATE TABLE customers (\n  id int PRIMARY KEY\n);`. -/
theorem c3_compile_customers :
    ddlConverterRun customersOnlyMDL =
      .ok [{ id := "0",
             content := "\n/* \x7b\x7d */\nCREATE TABLE customers (\n  id int PRIMARY KEY\n);" }] := by
  rfl

/-! ## C2 -/

/-- C2 (counterexample): on unparseable input the run does fail, but both
stores have already been mutated: the previously stored documents are
deleted before validation, because the pipeline graph wires the cleaner
before the validator (`pipe.connect("cleaner", "validator")`). -/
theorem c2_counterexample :
    (indexingRun none staleDdlStore staleViewStore).2 =
      some (PyErr.valueError "Invalid JSON") ∧
    (indexingRun none staleDdlStore staleViewStore).1.1 = [] ∧
    (indexingRun none staleDdlStore staleViewStore).1.2 = [] ∧
    staleDdlStore ≠ [] ∧ staleViewStore ≠ [] := by
  decide

/-- C2 (amended): for every input text that is not parseable as structured
data, the indexing run fails with the malformed-input `ValueError` and no
document is written, but only after both stores have been cleared: the
final store states are exactly the cleared stores. -/
theorem c2_clear_before_validate (ddlStore viewStore : List CompiledDocument) :
    indexingRun none ddlStore viewStore =
      ((clearDocuments ddlStore, clearDocuments viewStore),
       some (PyErr.valueError "Invalid JSON")) := rfl

/-! ## C6 -/

/-- C6 (counterexample): the input `[1]` is parseable JSON, yet the
validator raises `TypeError` (item assignment on a list) instead of
returning an MDL with the four keys defaulted. -/
theorem c6_counterexample :
    mdlValidatorRun (some (JValue.arr [JValue.num 1])) =
      .error PyErr.typeError := rfl

/-! ## C7 -/

/-- C7 (counterexample): a MANY_TO_ONE relationship whose condition splits
into three dotted references, not exactly two, is not rejected:
foreign-key resolution succeeds and silently uses the first two parts, so
the claimed failure condition is wrong (and the code raises plain
`KeyError`/`IndexError` in its failure cases, not a structured
`RelationshipResolutionError`, which does not exist in the code). -/
theorem c7_counterexample :
    (pySplit threePartRel.condition " = ").length = 3 ∧
    ((pySplit threePartRel.condition " = ").all
      (fun part => (pySplit part ".").length == 2)) = true ∧
    fkForRel [("orders", "o_id"), ("customers", "cid")] "orders" threePartRel =
      .ok (some "FOREIGN KEY (a) REFERENCES customers(cid)") := by
  decide

/-! ## Helper lemmas on the Except monad and the relationship pass -/

/-- Bind inversion for `Except`: a successful bind factors through a
successful first computation. -/
theorem exceptBind_ok {ε α β : Type} (x : Except ε α) (f : α → Except ε β)
    (b : β) (h : (x >>= f) = .ok b) : ∃ a, x = .ok a ∧ f a = .ok b := by
  cases x with
  | error e => exact absurd h (fun hh => Except.noConfusion hh)
  | ok a => exact ⟨a, rfl, h⟩

/-- Reduction of a successful bind for `Except`. -/
theorem exceptOkBind {ε α β : Type} (a : α) (f : α → Except ε β) :
    (Except.ok (ε := ε) a >>= f) = f a := rfl

/-- Reduction of `Functor.map` over a successful `Except`. -/
theorem exceptMapOk {ε α β : Type} (a : α) (f : α → β) :
    (f <$> Except.ok (ε := ε) a) = Except.ok (f a) := rfl

/-- Reduction of a failed bind for `Except`. -/
theorem exceptErrorBind {ε α β : Type} (e : ε) (f : α → Except ε β) :
    (Except.error (α := α) e >>= f) = Except.error e := rfl

/-- If the relationship pass over `rels` for table `tn` succeeds with the
constraint lines `ls`, every relationship of the list that contributes a
constraint `s` has `s` among `ls`. -/
theorem relationshipLines_mem (pkMap : List (String × String)) (tn : String) :
    ∀ (rels : List Relationship) (ls : List String) (r : Relationship) (s : String),
      relationshipLines pkMap tn rels = .ok ls → r ∈ rels →
      fkForRel pkMap tn r = .ok (some s) → s ∈ ls := by
  intro rels
  induction rels with
  | nil => intro ls r s _ hmem _; cases hmem
  | cons r0 rs ih =>
    intro ls r s hok hmem hfk
    obtain ⟨fk0, e1, hrest⟩ := exceptBind_ok _ _ _ hok
    obtain ⟨rest, e2, hmatch⟩ := exceptBind_ok _ _ _ hrest
    rcases List.mem_cons.mp hmem with heq | hmem2
    · subst heq
      have hfk0 : fk0 = some s := by
        have := e1.symm.trans hfk
        exact (Except.ok.inj this)
      subst hfk0
      have hls : ls = s :: rest := (Except.ok.inj hmatch).symm
      rw [hls]
      exact List.mem_cons_self s rest
    · have hmemRest : s ∈ rest := ih rest r s e2 hmem2 hfk
      cases fk0 with
      | some s0 =>
        have hls : ls = s0 :: rest := (Except.ok.inj hmatch).symm
        rw [hls]
        exact List.mem_cons_of_mem s0 hmemRest
      | none =>
        have hls : ls = rest := (Except.ok.inj hmatch).symm
        rw [hls]
        exact hmemRest

/-- Symbolic evaluation of `fkForRel` for a MANY_TO_ONE relationship whose
first model is the current table: the constraint uses the column of the
left dotted reference and the second model's primary key. -/
theorem fkForRel_many_to_one (pkMap : List (String × String))
    (a b joinType cond lhs col pk : String)
    (hjoin : pyToUpper joinType = "MANY_TO_ONE")
    (hlhs : (pySplit cond " = ")[0]? = some lhs)
    (hcol : (pySplit lhs ".")[1]? = some col)
    (hpk : pyDictGet pkMap b = .ok pk) :
    fkForRel pkMap a { models := [a, b], joinType := joinType, condition := cond } =
      .ok (some ("FOREIGN KEY (" ++ col ++ ") REFERENCES " ++ b ++ "(" ++ pk ++ ")")) := by
  simp [fkForRel, pyListGet, hjoin, hlhs, hcol, hpk, exceptOkBind, exceptMapOk]

/-! ## C1 -/

/-- C1: for a MANY_TO_ONE relationship `{models:[a,b], condition:cond}`
contained in the relationship list, the compiled body lines of the table
named `a` contain `FOREIGN KEY (col) REFERENCES b(pk)`, where `col` is the
column name of the left dotted reference of the condition and `pk` is the
primary key recorded for `b` in the primary-key map; moreover the
CREATE TABLE block for that table is the comma-newline joined rendering of
exactly those body lines.  (Instantiated at the orders/customers example
of the spec by the witness.) -/
theorem c1_many_to_one_fk (pkMap : List (String × String))
    (rels : List Relationship) (m : Model)
    (a b joinType cond lhs col pk : String) (lines : List String)
    (hmem : ({ models := [a, b], joinType := joinType, condition := cond } : Relationship) ∈ rels)
    (hjoin : pyToUpper joinType = "MANY_TO_ONE")
    (hname : m.name = a)
    (hlhs : (pySplit cond " = ")[0]? = some lhs)
    (hcol : (pySplit lhs ".")[1]? = some col)
    (hpk : pyDictGet pkMap b = .ok pk)
    (hlines : tableColumnsDDL pkMap rels m = .ok lines) :
    ("FOREIGN KEY (" ++ col ++ ") REFERENCES " ++ b ++ "(" ++ pk ++ ")") ∈ lines ∧
    tableDDL pkMap rels m = .ok (modelComment m ++ "CREATE TABLE " ++ m.name
      ++ " (\n  " ++ String.intercalate ",\n  " lines ++ "\n);") := by
  constructor
  · obtain ⟨cols, e1, h2⟩ := exceptBind_ok _ _ _ hlines
    obtain ⟨fks, e2, h3⟩ := exceptBind_ok _ _ _ h2
    have hls : lines = cols ++ fks := (Except.ok.inj h3).symm
    have hfk : fkForRel pkMap m.name
        { models := [a, b], joinType := joinType, condition := cond } =
        .ok (some ("FOREIGN KEY (" ++ col ++ ") REFERENCES " ++ b ++ "(" ++ pk ++ ")")) := by
      rw [hname]
      exact fkForRel_many_to_one pkMap a b joinType cond lhs col pk hjoin hlhs hcol hpk
    have hmemfks := relationshipLines_mem pkMap m.name rels fks _ _ e2 hmem hfk
    rw [hls]
    exact List.mem_append_right cols hmemfks
  · unfold tableDDL
    rw [hlines, exceptOkBind]
    rfl

/-- The orders model of the spec's foreign-key example. -/
def ordersModelW : Model :=
  { name := "orders", properties := none,
    columns := [{ name := "o_id", type := "int", properties := none,
                  relationship := none, expression := none, isCalculated := none },
                { name := "customer_id", type := "int", properties := none,
                  relationship := none, expression := none, isCalculated := none }],
    primaryKey := "o_id" }

/-- The customers model of the spec's foreign-key example. -/
def customersModelW : Model :=
  { name := "customers", properties := none,
    columns := [{ name := "id", type := "int", properties := none,
                  relationship := none, expression := none, isCalculated := none }],
    primaryKey := "id" }

/-- The MANY_TO_ONE relationship of the spec's foreign-key example. -/
def ordersCustomersRel : Relationship :=
  { models := ["orders", "customers"], joinType := "MANY_TO_ONE",
    condition := "orders.customer_id = customers.id" }

/-- Witness for C1 at the orders/customers instance. -/
theorem c1_many_to_one_fk_witness :
    ("FOREIGN KEY (customer_id) REFERENCES customers(id)") ∈
      ["o_id int PRIMARY KEY", "customer_id int",
       "FOREIGN KEY (customer_id) REFERENCES customers(id)"] ∧
    tableDDL (primaryKeysMap [ordersModelW, customersModelW]) [ordersCustomersRel]
        ordersModelW =
      .ok (modelComment ordersModelW ++ "CREATE TABLE " ++ ordersModelW.name
        ++ " (\n  " ++ String.intercalate ",\n  "
          ["o_id int PRIMARY KEY", "customer_id int",
           "FOREIGN KEY (customer_id) REFERENCES customers(id)"] ++ "\n);") :=
  c1_many_to_one_fk (primaryKeysMap [ordersModelW, customersModelW])
    [ordersCustomersRel] ordersModelW "orders" "customers" "MANY_TO_ONE"
    "orders.customer_id = customers.id" "orders.customer_id" "customer_id" "id"
    ["o_id int PRIMARY KEY", "customer_id int",
     "FOREIGN KEY (customer_id) REFERENCES customers(id)"]
    (by decide) (by decide) (by decide) (by decide) (by decide) (by decide) (by decide)

/-! ## C4 -/

/-- If a relationship of the list contributes constraint `s` for model `m`,
then `s` occurs among the successfully compiled body lines of `m`. -/
theorem tableColumnsDDL_fk_mem (pkMap : List (String × String))
    (rels : List Relationship) (m : Model) (r : Relationship) (s : String)
    (lines : List String)
    (hmem : r ∈ rels)
    (hfk : fkForRel pkMap m.name r = .ok (some s))
    (hlines : tableColumnsDDL pkMap rels m = .ok lines) : s ∈ lines := by
  obtain ⟨cols, e1, h2⟩ := exceptBind_ok _ _ _ hlines
  obtain ⟨fks, e2, h3⟩ := exceptBind_ok _ _ _ h2
  have hls : lines = cols ++ fks := (Except.ok.inj h3).symm
  rw [hls]
  exact List.mem_append_right cols (relationshipLines_mem pkMap m.name rels fks _ _ e2 hmem hfk)

/-- Symbolic evaluation of `fkForRel` for a ONE_TO_ONE relationship when
the current table is the first listed model: position 0 of the split
condition supplies the column, and the second model's primary key is
referenced. -/
theorem fkForRel_one_to_one_first (pkMap : List (String × String))
    (a b joinType cond lhs rhs x pk : String)
    (hab : a ≠ b)
    (hjoin : pyToUpper joinType = "ONE_TO_ONE")
    (hsplit : pySplit cond " = " = [lhs, rhs])
    (hx : (pySplit lhs ".")[1]? = some x)
    (hpk : pyDictGet pkMap b = .ok pk) :
    fkForRel pkMap a { models := [a, b], joinType := joinType, condition := cond } =
      .ok (some ("FOREIGN KEY (" ++ x ++ ") REFERENCES " ++ b ++ "(" ++ pk ++ ")")) := by
  have hba : (b == a) = false := beq_eq_false_iff_ne.mpr (Ne.symm hab)
  have hab2 : (a == b) = false := beq_eq_false_iff_ne.mpr hab
  have hbne : (b != a) = true := by simp [bne, hba]
  simp [fkForRel, pyListGet, hjoin, hsplit, hx, hpk, exceptOkBind, exceptMapOk,
    hab, hab2, hba, hbne, List.indexOf, List.findIdx, List.findIdx.go]

/-- Symbolic evaluation of `fkForRel` for a ONE_TO_ONE relationship when
the current table is the second listed model: position 1 of the split
condition supplies the column, and the first model's primary key is
referenced. -/
theorem fkForRel_one_to_one_second (pkMap : List (String × String))
    (a b joinType cond lhs rhs y pk : String)
    (hab : a ≠ b)
    (hjoin : pyToUpper joinType = "ONE_TO_ONE")
    (hsplit : pySplit cond " = " = [lhs, rhs])
    (hy : (pySplit rhs ".")[1]? = some y)
    (hpk : pyDictGet pkMap a = .ok pk) :
    fkForRel pkMap b { models := [a, b], joinType := joinType, condition := cond } =
      .ok (some ("FOREIGN KEY (" ++ y ++ ") REFERENCES " ++ a ++ "(" ++ pk ++ ")")) := by
  have hba : (b == a) = false := beq_eq_false_iff_ne.mpr (Ne.symm hab)
  have hab2 : (a == b) = false := beq_eq_false_iff_ne.mpr hab
  have hane : (a != b) = true := by simp [bne, hab2]
  simp [fkForRel, pyListGet, hjoin, hsplit, hy, hpk, exceptOkBind, exceptMapOk,
    hab, hab2, hba, hane, List.indexOf, List.findIdx, List.findIdx.go]

/-- C4: for a ONE_TO_ONE relationship `{models:[a,b], condition:cond}`
contained in the relationship list (with `a` and `b` distinct), the
compiled body lines of table `a` contain
`FOREIGN KEY (x) REFERENCES b(pkb)` and those of table `b` contain
`FOREIGN KEY (y) REFERENCES a(pka)`, where `x` and `y` are the column
names at the table's own position of the split condition and `pka`, `pkb`
are the primary keys recorded for the opposite tables: a symmetric pair of
foreign-key constraints. -/
theorem c4_one_to_one_symmetry (pkMap : List (String × String))
    (rels : List Relationship) (ma mb : Model)
    (a b joinType cond lhs rhs x y pka pkb : String)
    (linesA linesB : List String)
    (hab : a ≠ b)
    (hmem : ({ models := [a, b], joinType := joinType, condition := cond } : Relationship) ∈ rels)
    (hjoin : pyToUpper joinType = "ONE_TO_ONE")
    (hnameA : ma.name = a) (hnameB : mb.name = b)
    (hsplit : pySplit cond " = " = [lhs, rhs])
    (hx : (pySplit lhs ".")[1]? = some x)
    (hy : (pySplit rhs ".")[1]? = some y)
    (hpka : pyDictGet pkMap a = .ok pka)
    (hpkb : pyDictGet pkMap b = .ok pkb)
    (hlinesA : tableColumnsDDL pkMap rels ma = .ok linesA)
    (hlinesB : tableColumnsDDL pkMap rels mb = .ok linesB) :
    ("FOREIGN KEY (" ++ x ++ ") REFERENCES " ++ b ++ "(" ++ pkb ++ ")") ∈ linesA ∧
    ("FOREIGN KEY (" ++ y ++ ") REFERENCES " ++ a ++ "(" ++ pka ++ ")") ∈ linesB := by
  constructor
  · refine tableColumnsDDL_fk_mem pkMap rels ma _ _ linesA hmem ?_ hlinesA
    rw [hnameA]
    exact fkForRel_one_to_one_first pkMap a b joinType cond lhs rhs x pkb hab hjoin
      hsplit hx hpkb
  · refine tableColumnsDDL_fk_mem pkMap rels mb _ _ linesB hmem ?_ hlinesB
    rw [hnameB]
    exact fkForRel_one_to_one_second pkMap a b joinType cond lhs rhs y pka hab hjoin
      hsplit hy hpka

/-- The model `a` of the ONE_TO_ONE example. -/
def aModelW : Model :=
  { name := "a", properties := none,
    columns := [{ name := "pa", type := "int", properties := none,
                  relationship := none, expression := none, isCalculated := none },
                { name := "x", type := "int", properties := none,
                  relationship := none, expression := none, isCalculated := none }],
    primaryKey := "pa" }

/-- The model `b` of the ONE_TO_ONE example. -/
def bModelW : Model :=
  { name := "b", properties := none,
    columns := [{ name := "pb", type := "int", properties := none,
                  relationship := none, expression := none, isCalculated := none },
                { name := "y", type := "int", properties := none,
                  relationship := none, expression := none, isCalculated := none }],
    primaryKey := "pb" }

/-- The ONE_TO_ONE relationship of the example. -/
def abOneToOneRel : Relationship :=
  { models := ["a", "b"], joinType := "ONE_TO_ONE", condition := "a.x = b.y" }

/-- Witness for C4 at the `a`/`b` instance of the spec. -/
theorem c4_one_to_one_symmetry_witness :
    ("FOREIGN KEY (x) REFERENCES b(pb)") ∈
      ["pa int PRIMARY KEY", "x int", "FOREIGN KEY (x) REFERENCES b(pb)"] ∧
    ("FOREIGN KEY (y) REFERENCES a(pa)") ∈
      ["pb int PRIMARY KEY", "y int", "FOREIGN KEY (y) REFERENCES a(pa)"] :=
  c4_one_to_one_symmetry (primaryKeysMap [aModelW, bModelW]) [abOneToOneRel]
    aModelW bModelW "a" "b" "ONE_TO_ONE" "a.x = b.y" "a.x" "b.y" "x" "y" "pa" "pb"
    ["pa int PRIMARY KEY", "x int", "FOREIGN KEY (x) REFERENCES b(pb)"]
    ["pb int PRIMARY KEY", "y int", "FOREIGN KEY (y) REFERENCES a(pa)"]
    (by decide) (by decide) (by decide) (by decide) (by decide) (by decide)
    (by decide) (by decide) (by decide) (by decide) (by decide) (by decide)

/-- C7 (amended): in the MANY_TO_ONE branch for the first-listed model,
foreign-key resolution fails with an unhandled `KeyError` naming only the
related table when the opposite table's primary key is absent from the
primary-key map (and the left side of the condition yields a dotted
column), and with an unhandled `IndexError` when the left side of the
condition contains no dot; the code raises no structured error carrying
the model and the relationship. -/
theorem c7_fk_resolution_errors (pkMap : List (String × String))
    (a b joinType : String)
    (hjoin : pyToUpper joinType = "MANY_TO_ONE")
    (hb : pyDictGet? pkMap b = none) :
    (∀ cond lhs col, (pySplit cond " = ")[0]? = some lhs →
      (pySplit lhs ".")[1]? = some col →
      fkForRel pkMap a { models := [a, b], joinType := joinType, condition := cond } =
        .error (PyErr.keyError b)) ∧
    (∀ cond lhs, (pySplit cond " = ")[0]? = some lhs →
      (pySplit lhs ".")[1]? = none →
      fkForRel pkMap a { models := [a, b], joinType := joinType, condition := cond } =
        .error PyErr.indexError) := by
  constructor
  · intro cond lhs col h0 h1
    simp [fkForRel, pyListGet, pyDictGet, hjoin, h0, h1, hb, exceptOkBind, exceptMapOk]
  · intro cond lhs h0 h1
    simp [fkForRel, pyListGet, hjoin, h0, h1, exceptOkBind, exceptErrorBind]

/-- Witness for C7's amended claim: with `customers` absent from the
primary-key map, a well-formed condition fails with `KeyError "customers"`,
and a dotless left side fails with `IndexError`. -/
theorem c7_fk_resolution_errors_witness :
    fkForRel [("orders", "o_id")] "orders"
      { models := ["orders", "customers"], joinType := "MANY_TO_ONE",
        condition := "orders.customer_id = customers.id" } =
      .error (PyErr.keyError "customers") ∧
    fkForRel [("orders", "o_id")] "orders"
      { models := ["orders", "customers"], joinType := "MANY_TO_ONE",
        condition := "ordersx = customers.id" } =
      .error PyErr.indexError :=
  ⟨(c7_fk_resolution_errors [("orders", "o_id")] "orders" "customers" "MANY_TO_ONE"
      (by decide) (by decide)).1 "orders.customer_id = customers.id"
      "orders.customer_id" "customer_id" (by decide) (by decide),
   (c7_fk_resolution_errors [("orders", "o_id")] "orders" "customers" "MANY_TO_ONE"
      (by decide) (by decide)).2 "ordersx = customers.id" "ordersx"
      (by decide) (by decide)⟩

/-! ## C5 -/

/-- A successful model pass produces exactly one command per model. -/
theorem convertModelsLoop_length (pkMap : List (String × String))
    (rels : List Relationship) :
    ∀ (models : List Model) (cmds : List String),
      convertModelsLoop pkMap rels models = .ok cmds →
      cmds.length = models.length := by
  intro models
  induction models with
  | nil =>
    intro cmds h
    have hc : [] = cmds := Except.ok.inj h
    simp [← hc]
  | cons m ms ih =>
    intro cmds h
    obtain ⟨cmd, e1, h2⟩ := exceptBind_ok _ _ _ h
    obtain ⟨rest, e2, h3⟩ := exceptBind_ok _ _ _ h2
    have hc : cmds = cmd :: rest := (Except.ok.inj h3).symm
    subst hc
    simp [ih rest e2]

/-- Enumerating commands into documents preserves the command list as the
content projection. -/
theorem enumerateDocs_map_content :
    ∀ (n : Nat) (cmds : List String),
      (enumerateDocs n cmds).map (fun d => d.content) = cmds := by
  intro n cmds
  induction cmds generalizing n with
  | nil => rfl
  | cons c cs ih => simp [enumerateDocs, ih]

/-- Enumerating commands into documents preserves length. -/
theorem enumerateDocs_length :
    ∀ (n : Nat) (cmds : List String),
      (enumerateDocs n cmds).length = cmds.length := by
  intro n cmds
  induction cmds generalizing n with
  | nil => rfl
  | cons c cs ih => simp [enumerateDocs, ih]

/-- The document at position `i` of an enumeration starting at `n` has id
`toString (n + i)`. -/
theorem enumerateDocs_get_id :
    ∀ (cmds : List String) (n i : Nat) (hi : i < (enumerateDocs n cmds).length),
      ((enumerateDocs n cmds).get ⟨i, hi⟩).id = toString (n + i) := by
  intro cmds
  induction cmds with
  | nil => intro n i hi; simp [enumerateDocs] at hi
  | cons c cs ih =>
    intro n i hi
    cases i with
    | zero => simp [enumerateDocs]
    | succ j =>
      have hj : j < (enumerateDocs (n + 1) cs).length := by
        have := hi
        simp only [enumerateDocs, List.length_cons] at this
        omega
      have hrec := ih (n + 1) j hj
      simp only [enumerateDocs, List.get_cons_succ]
      rw [hrec]
      congr 1
      omega

/-- C5: whenever `DDLConverter.run` succeeds, the produced documents are,
in order, one CREATE TABLE block per model in input order, then one block
per metric in input order, then one block per view in input order, never
interleaved; and each document's id is the decimal string of its zero-based
position in this global emission order. -/
theorem c5_ordering_and_ids (mdl : MDL) (docs : List CompiledDocument)
    (h : ddlConverterRun mdl = .ok docs) :
    ∃ modelCmds,
      convertModelsAndRelationships (mdl.models.map toSemanticsModel)
          mdl.relationships = .ok modelCmds ∧
      modelCmds.length = mdl.models.length ∧
      (convertMetrics mdl.metrics).length = mdl.metrics.length ∧
      (convertViews mdl.views).length = mdl.views.length ∧
      docs.map (fun d => d.content) =
        modelCmds ++ convertMetrics mdl.metrics ++ convertViews mdl.views ∧
      (∀ i (hi : i < docs.length), (docs.get ⟨i, hi⟩).id = toString i) := by
  obtain ⟨modelCmds, e1, h2⟩ := exceptBind_ok _ _ _ h
  have hdocs : docs = enumerateDocs 0
      (modelCmds ++ convertMetrics mdl.metrics ++ convertViews mdl.views) :=
    (Except.ok.inj h2).symm
  subst hdocs
  refine ⟨modelCmds, e1, ?_, ?_, ?_, ?_, ?_⟩
  · have hlen := convertModelsLoop_length
      (primaryKeysMap (mdl.models.map toSemanticsModel)) mdl.relationships
      (mdl.models.map toSemanticsModel) modelCmds e1
    simpa using hlen
  · simp [convertMetrics]
  · simp [convertViews]
  · exact enumerateDocs_map_content 0 _
  · intro i hi
    have := enumerateDocs_get_id _ 0 i hi
    simpa using this

/-- An MDL exercising all three emission phases: one model, one metric and
one view. -/
def orderedMDLW : MDL :=
  { models := [customersModelW]
    relationships := []
    metrics := [{ name := "m_metric", baseObject := "customers",
                  dimension := [{ name := "d1", type := "int" }],
                  measure := [{ name := "s1", type := "int", expression := "sum(x)" }] }]
    views := [{ name := "v1", statement := "select 1", properties := none }] }

/-- The documents that `ddlConverterRun` produces for `orderedMDLW`. -/
def orderedDocsW : List CompiledDocument :=
  [{ id := "0",
     content := "\n/* \x7b\x7d */\nCREATE TABLE customers (\n  id int PRIMARY KEY\n);" },
   { id := "1",
     content := "\n/* This table is a metric */\n/* Metric Base Object: customers */\nCREATE TABLE m_metric (\n  -- This column is a dimension\n  d1 int,\n  -- This column is a measure\n  -- expression: sum(x)\n  s1 int\n);" },
   { id := "2", content := "/*  */\nCREATE VIEW v1\nAS (select 1)" }]

set_option maxRecDepth 4000 in
/-- Witness for C5 at a one-model, one-metric, one-view MDL. -/
theorem c5_ordering_and_ids_witness :
    ∃ modelCmds,
      convertModelsAndRelationships (orderedMDLW.models.map toSemanticsModel)
          orderedMDLW.relationships = .ok modelCmds ∧
      modelCmds.length = orderedMDLW.models.length ∧
      (convertMetrics orderedMDLW.metrics).length = orderedMDLW.metrics.length ∧
      (convertViews orderedMDLW.views).length = orderedMDLW.views.length ∧
      orderedDocsW.map (fun d => d.content) =
        modelCmds ++ convertMetrics orderedMDLW.metrics ++ convertViews orderedMDLW.views ∧
      (∀ i (hi : i < orderedDocsW.length),
        (orderedDocsW.get ⟨i, hi⟩).id = toString i) :=
  c5_ordering_and_ids orderedMDLW orderedDocsW (by decide)

/-! ## C8 -/

/-- A dictionary lookup succeeds exactly when the key is present. -/
theorem pyDictGet?_isSome {α : Type} (d : List (String × α)) (k : String) :
    (pyDictGet? d k).isSome = pyDictHasKey d k := by
  unfold pyDictGet? pyDictHasKey
  rw [Option.isSome_map', Bool.eq_iff_iff]
  simp [List.find?_isSome, List.any_eq_true, List.mem_reverse]

/-- The `question` field of a converted view is the optional-chain lookup
with default `""`. -/
theorem viewQuestion_eq (v : View) :
    viewQuestion v =
      ((v.properties.bind (fun ps => pyDictGet? ps "question")).getD "") := by
  cases v with
  | mk name statement properties =>
    cases properties with
    | none => rfl
    | some ps =>
      simp only [viewQuestion, Option.bind]
      by_cases h : pyDictHasKey ps "question"
      · cases hq : pyDictGet? ps "question" with
        | none =>
          rw [← pyDictGet?_isSome, hq] at h
          simp at h
        | some q => simp [h, hq]
      · have hb : pyDictHasKey ps "question" = false := by
          simpa using h
        have hn : pyDictGet? ps "question" = none := by
          have hs := pyDictGet?_isSome ps "question"
          rw [hb] at hs
          exact Option.not_isSome_iff_eq_none.mp (by simp [hs])
        simp [h, hn]

/-- The `description` field of a converted view is the optional-chain
lookup with default `""`. -/
theorem viewDescription_eq (v : View) :
    viewDescription v =
      ((v.properties.bind (fun ps => pyDictGet? ps "description")).getD "") := by
  cases v with
  | mk name statement properties =>
    cases properties with
    | none => rfl
    | some ps =>
      simp only [viewDescription, Option.bind]
      by_cases h : pyDictHasKey ps "description"
      · cases hq : pyDictGet? ps "description" with
        | none =>
          rw [← pyDictGet?_isSome, hq] at h
          simp at h
        | some q => simp [h, hq]
      · have hb : pyDictHasKey ps "description" = false := by
          simpa using h
        have hn : pyDictGet? ps "description" = none := by
          have hs := pyDictGet?_isSome ps "description"
          rw [hb] at hs
          exact Option.not_isSome_iff_eq_none.mp (by simp [hs])
        simp [h, hn]

/-- C8: the view projector emits one record per entry of the views list in
list order, whose content renders `{question, description, statement}`
where question and description default to the empty string when
`properties` or the respective key is absent; each record's id is the
decimal string of its zero-based position, and an empty views list
produces zero documents. -/
theorem c8_view_projection (views : List View) :
    (viewConverterRun views).length = views.length ∧
    viewConverterRun views = enumerateDocs 0 (views.map (fun v =>
      pyStrDict
        [("question", (v.properties.bind (fun ps => pyDictGet? ps "question")).getD ""),
         ("description", (v.properties.bind (fun ps => pyDictGet? ps "description")).getD ""),
         ("statement", v.statement)])) ∧
    (∀ i (hi : i < (viewConverterRun views).length),
      ((viewConverterRun views).get ⟨i, hi⟩).id = toString i) ∧
    (views = [] → viewConverterRun views = []) := by
  have hfmt : ∀ v : View, formatView v =
      pyStrDict
        [("question", (v.properties.bind (fun ps => pyDictGet? ps "question")).getD ""),
         ("description", (v.properties.bind (fun ps => pyDictGet? ps "description")).getD ""),
         ("statement", v.statement)] := by
    intro v
    rw [formatView, viewQuestion_eq, viewDescription_eq]
  have hrun : viewConverterRun views = enumerateDocs 0 (views.map formatView) := by
    cases views with
    | nil => rfl
    | cons v vs => rfl
  refine ⟨?_, ?_, ?_, ?_⟩
  · rw [hrun, enumerateDocs_length, List.length_map]
  · rw [hrun]
    congr 1
    exact List.map_congr_left (fun v _ => hfmt v)
  · intro i hi
    have hi2 : i < (enumerateDocs 0 (views.map formatView)).length := hrun ▸ hi
    have hgt := List.get_of_eq hrun ⟨i, hi⟩
    rw [hgt]
    simpa using enumerateDocs_get_id (views.map formatView) 0 i hi2
  · intro h
    subst h
    rfl

/-- A two-view list: one view with both optional properties, one without
a properties dictionary. -/
def viewsW : List View :=
  [{ name := "v1", statement := "select 1",
     properties := some [("question", "q1"), ("description", "d1")] },
   { name := "v2", statement := "select 2", properties := none }]

/-- Witness for C8 at `viewsW`. -/
theorem c8_view_projection_witness :
    (viewConverterRun viewsW).length = viewsW.length ∧
    viewConverterRun viewsW = enumerateDocs 0 (viewsW.map (fun v =>
      pyStrDict
        [("question", (v.properties.bind (fun ps => pyDictGet? ps "question")).getD ""),
         ("description", (v.properties.bind (fun ps => pyDictGet? ps "description")).getD ""),
         ("statement", v.statement)])) ∧
    (∀ i (hi : i < (viewConverterRun viewsW).length),
      ((viewConverterRun viewsW).get ⟨i, hi⟩).id = toString i) ∧
    (viewsW = [] → viewConverterRun viewsW = []) :=
  c8_view_projection viewsW

/-! ## C6 (amended) -/

/-- The bindings a single defaulting step appends to a JSON object. -/
def ensureExtra (fields : List (String × JValue)) (key : String) :
    List (String × JValue) :=
  if pyDictHasKey fields key then [] else [(key, JValue.arr [])]

/-- On a JSON object, one defaulting step appends `ensureExtra`. -/
theorem ensureKey_obj (fields : List (String × JValue)) (key : String) :
    ensureKey (JValue.obj fields) key =
      .ok (JValue.obj (fields ++ ensureExtra fields key)) := by
  unfold ensureKey jContains jSetItem pyDictInsert ensureExtra
  by_cases h : pyDictHasKey fields key
  · simp [h, exceptOkBind]
    rfl
  · simp [h, exceptOkBind]

/-- Every binding appended by a defaulting step is the defaulted key with
an empty array, and that key was absent. -/
theorem ensureExtra_mem (fields : List (String × JValue)) (key : String)
    (p : String × JValue) (hp : p ∈ ensureExtra fields key) :
    p = (key, JValue.arr []) ∧ pyDictHasKey fields key = false := by
  unfold ensureExtra at hp
  by_cases h : pyDictHasKey fields key
  · simp [h] at hp
  · simp [h] at hp
    exact ⟨hp, by simpa using h⟩

/-- Key membership distributes over dictionary concatenation. -/
theorem pyDictHasKey_append {α : Type} (a b : List (String × α)) (k : String) :
    pyDictHasKey (a ++ b) k = (pyDictHasKey a k || pyDictHasKey b k) := by
  simp [pyDictHasKey, List.any_append]

/-- After a defaulting step the key is present. -/
theorem pyDictHasKey_ensureExtra (fields : List (String × JValue)) (k : String) :
    pyDictHasKey (fields ++ ensureExtra fields k) k = true := by
  by_cases h : pyDictHasKey fields k
  · simp [pyDictHasKey_append, h]
  · rw [pyDictHasKey_append]
    have h2 : pyDictHasKey (ensureExtra fields k) k = true := by
      have hf : pyDictHasKey fields k = false := by simpa using h
      unfold ensureExtra
      rw [hf]
      simp [pyDictHasKey]
    rw [h2]
    simp

/-- A key present on the left stays present after appending. -/
theorem pyDictHasKey_append_true_left {α : Type} (a b : List (String × α))
    (k : String) (h : pyDictHasKey a k = true) :
    pyDictHasKey (a ++ b) k = true := by
  rw [pyDictHasKey_append, h]
  rfl

/-- A key absent from a concatenation is absent from the left part. -/
theorem pyDictHasKey_append_false_left {α : Type} (a b : List (String × α))
    (k : String) (h : pyDictHasKey (a ++ b) k = false) :
    pyDictHasKey a k = false := by
  rw [pyDictHasKey_append] at h
  exact (Bool.or_eq_false_iff.mp h).1

/-- Appending bindings whose keys avoid `k` does not change a lookup. -/
theorem pyDictGet?_append_right_none {α : Type} (a b : List (String × α))
    (k : String) (h : pyDictHasKey b k = false) :
    pyDictGet? (a ++ b) k = pyDictGet? a k := by
  unfold pyDictGet?
  rw [List.reverse_append, List.find?_append]
  have hb : b.reverse.find? (fun p => p.1 == k) = none := by
    rw [List.find?_eq_none]
    intro x hx
    have hx2 : x ∈ b := List.mem_reverse.mp hx
    intro hxk
    have : pyDictHasKey b k = true := by
      unfold pyDictHasKey
      rw [List.any_eq_true]
      exact ⟨x, hx2, hxk⟩
    rw [h] at this
    cases this
  rw [hb]
  rfl

/-- One defaulting step of the validator, packaged for chaining. -/
theorem ensureKey_step (fields : List (String × JValue)) (key : String) :
    ∃ e, ensureKey (JValue.obj fields) key = .ok (JValue.obj (fields ++ e)) ∧
      (∀ p ∈ e, p.2 = JValue.arr [] ∧ p.1 = key ∧
        pyDictHasKey fields p.1 = false) ∧
      pyDictHasKey (fields ++ e) key = true := by
  refine ⟨ensureExtra fields key, ensureKey_obj fields key, ?_,
    pyDictHasKey_ensureExtra fields key⟩
  intro p hp
  obtain ⟨h1, h2⟩ := ensureExtra_mem fields key p hp
  subst h1
  exact ⟨rfl, rfl, h2⟩

/-- C6 (amended): for every input parseable as a JSON object, the
validator succeeds; it appends an empty-array binding for exactly the keys
among `models`, `views`, `relationships`, `metrics` that are absent,
leaves the original bindings unchanged as a prefix (so lookups of present
keys are unchanged), and its output has all four keys.  (This restricts
the original claim's universal over every parseable input, which the
counterexample refutes: the parseable non-object input `[1]` raises
`TypeError`.) -/
theorem c6_validator_defaults (fields : List (String × JValue)) :
    ∃ extra, mdlValidatorRun (some (JValue.obj fields)) =
        .ok (JValue.obj (fields ++ extra)) ∧
      (∀ p ∈ extra, p.2 = JValue.arr [] ∧
        (p.1 = "models" ∨ p.1 = "views" ∨ p.1 = "relationships" ∨ p.1 = "metrics") ∧
        pyDictHasKey fields p.1 = false) ∧
      (∀ k, pyDictHasKey fields k = true →
        pyDictGet? (fields ++ extra) k = pyDictGet? fields k) ∧
      pyDictHasKey (fields ++ extra) "models" = true ∧
      pyDictHasKey (fields ++ extra) "views" = true ∧
      pyDictHasKey (fields ++ extra) "relationships" = true ∧
      pyDictHasKey (fields ++ extra) "metrics" = true := by
  obtain ⟨e1, h1, hm1, hk1⟩ := ensureKey_step fields "models"
  obtain ⟨e2, h2, hm2, hk2⟩ := ensureKey_step (fields ++ e1) "views"
  obtain ⟨e3, h3, hm3, hk3⟩ := ensureKey_step ((fields ++ e1) ++ e2) "relationships"
  obtain ⟨e4, h4, hm4, hk4⟩ := ensureKey_step (((fields ++ e1) ++ e2) ++ e3) "metrics"
  have hmem : ∀ p ∈ e1 ++ (e2 ++ (e3 ++ e4)), p.2 = JValue.arr [] ∧
      (p.1 = "models" ∨ p.1 = "views" ∨ p.1 = "relationships" ∨ p.1 = "metrics") ∧
      pyDictHasKey fields p.1 = false := by
    intro p hp
    rcases List.mem_append.mp hp with hp1 | hp'
    · obtain ⟨ha, hb, hc⟩ := hm1 p hp1
      exact ⟨ha, Or.inl hb, hc⟩
    rcases List.mem_append.mp hp' with hp2 | hp''
    · obtain ⟨ha, hb, hc⟩ := hm2 p hp2
      exact ⟨ha, Or.inr (Or.inl hb),
        pyDictHasKey_append_false_left fields e1 p.1 hc⟩
    rcases List.mem_append.mp hp'' with hp3 | hp4
    · obtain ⟨ha, hb, hc⟩ := hm3 p hp3
      exact ⟨ha, Or.inr (Or.inr (Or.inl hb)),
        pyDictHasKey_append_false_left fields e1 p.1
          (pyDictHasKey_append_false_left (fields ++ e1) e2 p.1 hc)⟩
    · obtain ⟨ha, hb, hc⟩ := hm4 p hp4
      exact ⟨ha, Or.inr (Or.inr (Or.inr hb)),
        pyDictHasKey_append_false_left fields e1 p.1
          (pyDictHasKey_append_false_left (fields ++ e1) e2 p.1
            (pyDictHasKey_append_false_left ((fields ++ e1) ++ e2) e3 p.1 hc))⟩
  refine ⟨e1 ++ (e2 ++ (e3 ++ e4)), ?_, hmem, ?_, ?_, ?_, ?_, ?_⟩
  · have hdef : mdlValidatorRun (some (JValue.obj fields)) =
        (ensureKey (JValue.obj fields) "models" >>= fun m1 =>
         ensureKey m1 "views" >>= fun m2 =>
         ensureKey m2 "relationships" >>= fun m3 =>
         ensureKey m3 "metrics" >>= fun m4 => pure m4) := rfl
    rw [hdef, h1, exceptOkBind, h2, exceptOkBind, h3, exceptOkBind, h4, exceptOkBind]
    simp [List.append_assoc]
    rfl
  · intro k hk
    have hextra : pyDictHasKey (e1 ++ (e2 ++ (e3 ++ e4))) k = false := by
      by_cases hx : pyDictHasKey (e1 ++ (e2 ++ (e3 ++ e4))) k = true
      · exfalso
        unfold pyDictHasKey at hx
        rw [List.any_eq_true] at hx
        obtain ⟨p, hp, hpk⟩ := hx
        have := (hmem p hp).2.2
        have hk2 : p.1 = k := by simpa using hpk
        rw [hk2] at this
        rw [hk] at this
        cases this
      · simpa using hx
    exact pyDictGet?_append_right_none fields _ k hextra
  · have := pyDictHasKey_append_true_left _ e4 "models"
      (pyDictHasKey_append_true_left _ e3 "models"
        (pyDictHasKey_append_true_left _ e2 "models" hk1))
    simpa [List.append_assoc] using this
  · have := pyDictHasKey_append_true_left _ e4 "views"
      (pyDictHasKey_append_true_left _ e3 "views" hk2)
    simpa [List.append_assoc] using this
  · have := pyDictHasKey_append_true_left _ e4 "relationships" hk3
    simpa [List.append_assoc] using this
  · simpa [List.append_assoc] using hk4

/-- Witness for C6's amended claim, at the empty object: validating `{}`
yields exactly `{models:[], views:[], relationships:[], metrics:[]}`, and
the general conclusions hold at `fields = []`. -/
theorem c6_validator_defaults_witness :
    mdlValidatorRun (some (JValue.obj [])) =
      .ok (JValue.obj [("models", JValue.arr []), ("views", JValue.arr []),
                       ("relationships", JValue.arr []), ("metrics", JValue.arr [])]) ∧
    ∃ extra, mdlValidatorRun (some (JValue.obj [])) =
        .ok (JValue.obj (([] : List (String × JValue)) ++ extra)) ∧
      (∀ p ∈ extra, p.2 = JValue.arr [] ∧
        (p.1 = "models" ∨ p.1 = "views" ∨ p.1 = "relationships" ∨ p.1 = "metrics") ∧
        pyDictHasKey ([] : List (String × JValue)) p.1 = false) ∧
      (∀ k, pyDictHasKey ([] : List (String × JValue)) k = true →
        pyDictGet? (([] : List (String × JValue)) ++ extra) k =
          pyDictGet? ([] : List (String × JValue)) k) ∧
      pyDictHasKey (([] : List (String × JValue)) ++ extra) "models" = true ∧
      pyDictHasKey (([] : List (String × JValue)) ++ extra) "views" = true ∧
      pyDictHasKey (([] : List (String × JValue)) ++ extra) "relationships" = true ∧
      pyDictHasKey (([] : List (String × JValue)) ++ extra) "metrics" = true :=
  ⟨rfl, c6_validator_defaults []⟩

/-! ## C9 -/

/-- A successful dictionary lookup returns a binding of the dictionary. -/
theorem pyDictGet?_mem {α : Type} (d : List (String × α)) (k : String) (v : α)
    (h : pyDictGet? d k = some v) : (k, v) ∈ d := by
  unfold pyDictGet? at h
  cases hf : d.reverse.find? (fun p => p.1 == k) with
  | none => rw [hf] at h; cases h
  | some p =>
    rw [hf] at h
    have hp := List.find?_some hf
    have hpm := List.mem_of_find?_eq_some hf
    have hk : p.1 = k := by simpa using hp
    have hv : p.2 = v := by simpa using h
    have hmem : p ∈ d := List.mem_reverse.mp hpm
    rw [← hk, ← hv]
    simpa using hmem

/-- A binding of a Python dictionary after an insertion is an old binding
or the inserted one. -/
theorem pyDictInsert_mem {α : Type} (d : List (String × α)) (k : String)
    (v : α) (p : String × α) (hp : p ∈ pyDictInsert d k v) :
    p ∈ d ∨ p = (k, v) := by
  unfold pyDictInsert at hp
  by_cases h : pyDictHasKey d k
  · rw [if_pos h] at hp
    obtain ⟨q, hq, he⟩ := List.mem_map.mp hp
    by_cases hqk : (q.1 == k) = true
    · right
      rw [← he]
      simp [hqk]
    · left
      rw [← he]
      simp only [hqk]
      simpa using hq
  · rw [if_neg h] at hp
    rcases List.mem_append.mp hp with h1 | h2
    · exact Or.inl h1
    · right
      simpa using h2

/-- Every binding of a name-keyed dictionary built over `ms` comes from the
accumulator or is `(nameOf m, m)` for some `m` of `ms`. -/
theorem dictByName_mem {α : Type} (nameOf : α → String) :
    ∀ (ms : List α) (acc : List (String × α)) (p : String × α),
      p ∈ ms.foldl (fun a m => pyDictInsert a (nameOf m) m) acc →
      p ∈ acc ∨ ∃ m ∈ ms, nameOf m = p.1 ∧ m = p.2 := by
  intro ms
  induction ms with
  | nil => intro acc p hp; exact Or.inl hp
  | cons m ms ih =>
    intro acc p hp
    rcases ih (pyDictInsert acc (nameOf m) m) p hp with hacc | ⟨m2, hm2, h1, h2⟩
    · rcases pyDictInsert_mem acc (nameOf m) m p hacc with h1 | h2
      · exact Or.inl h1
      · right
        refine ⟨m, List.mem_cons_self m ms, ?_, ?_⟩
        · rw [h2]
        · rw [h2]
    · right
      exact ⟨m2, List.mem_cons_of_mem m hm2, h1, h2⟩

/-- C9: every entry of the final description-annotation output names a
model that is both selected and present in the MDL, and every column it
lists bears the name of a non-relationship column of such a model —
generator-invented columns and unselected models never survive the
output filter. -/
theorem c9_output_filtered (mdl : SDMdl) (selected_models : List String)
    (parsedReply : Option GenResult) (name : String) (data : GenModel)
    (hmem : (name, data) ∈ output (normalizeReply parsedReply)
        (picked_models mdl selected_models)) :
    (∃ m ∈ mdl.models, m.name = name ∧ selected_models.contains m.name = true) ∧
    ∀ col ∈ data.columns, ∃ m ∈ mdl.models, m.name = name ∧
      ∃ mc ∈ m.columns, mc.relationship = none ∧ mc.name = col.name := by
  unfold output at hmem
  obtain ⟨p, hp, hsome⟩ := List.mem_filterMap.mp hmem
  cases hq : pyDictGet?
      (dictByName PickedModel.name (picked_models mdl selected_models)) p.1 with
  | none => rw [hq] at hsome; cases hsome
  | some pickedModel =>
    rw [hq] at hsome
    have hpair := Option.some.inj hsome
    have hname : p.1 = name := (Prod.ext_iff.mp hpair).1
    have hdata : { p.2 with
        columns := outputFilter p.2.columns pickedModel.columns } = data :=
      (Prod.ext_iff.mp hpair).2
    have hbind : (p.1, pickedModel) ∈
        dictByName PickedModel.name (picked_models mdl selected_models) :=
      pyDictGet?_mem _ _ _ hq
    have hsrc := dictByName_mem PickedModel.name
      (picked_models mdl selected_models) [] (p.1, pickedModel) hbind
    rcases hsrc with habs | ⟨pm, hpm, hpmName, hpmEq⟩
    · cases habs
    have hpicked := hpm
    unfold picked_models at hpicked
    obtain ⟨srcM, hsrcM, hextract⟩ := List.mem_map.mp hpicked
    have hsrcMem : srcM ∈ mdl.models := (List.mem_filter.mp hsrcM).1
    have hsrcSel : selected_models.contains srcM.name = true :=
      (List.mem_filter.mp hsrcM).2
    have hsrcName : srcM.name = name := by
      have : pm.name = p.1 := hpmName
      rw [← hextract] at this
      rw [← hname]
      exact this
    constructor
    · exact ⟨srcM, hsrcMem, hsrcName, hsrcSel⟩
    · intro col hcol
      have hcols : data.columns = outputFilter p.2.columns pickedModel.columns := by
        rw [← hdata]
      rw [hcols] at hcol
      unfold outputFilter at hcol
      have hfil := List.mem_filter.mp hcol
      have hcontains := hfil.2
      have hvalid : col.name ∈ pickedModel.columns.map (fun c => c.name) := by
        simpa using hcontains
      obtain ⟨pc, hpc, hpcName⟩ := List.mem_map.mp hvalid
      have hpmCols : pickedModel.columns = column_formatter srcM.columns := by
        have h5 : pickedModel = pm := hpmEq.symm
        rw [h5, ← hextract]
        rfl
      rw [hpmCols] at hpc
      unfold column_formatter at hpc
      obtain ⟨mc, hmc, hmcEq⟩ := List.mem_map.mp hpc
      have hmcMem : mc ∈ srcM.columns := (List.mem_filter.mp hmc).1
      have hmcRel : mc.relationship = none := by
        have := (List.mem_filter.mp hmc).2
        unfold relation_filter at this
        exact Option.isNone_iff_eq_none.mp this
      refine ⟨srcM, hsrcMem, hsrcName, mc, hmcMem, hmcRel, ?_⟩
      have : pc.name = mc.name := by
        rw [← hmcEq]
      rw [← hpcName, this]

/-! ## C10 -/

/-- C10: when the generator reply is not parseable as JSON, the normalize
step does not fail: it substitutes `{models: []}`, so the normalized
dictionary is empty and the pipeline's final output is the empty mapping
for every picked-model list. -/
theorem c10_unparseable_reply_empty :
    normalizeReply none = [] ∧
    ∀ pickedModels : List PickedModel,
      output (normalizeReply none) pickedModels = [] := by
  refine ⟨rfl, ?_⟩
  intro pickedModels
  rfl

/-- A semantics-description MDL with one model of two columns, one of
which is a relationship column. -/
def sdMdlW : SDMdl :=
  { models := [{ name := "m",
                 columns := [{ name := "a", type := "int", properties := [],
                               relationship := none },
                             { name := "r", type := "int", properties := [],
                               relationship := some "rel" }],
                 properties := [] }] }

/-- A generator reply naming an invented column and an unselected model. -/
def genResultW : GenResult :=
  { models := [{ name := "m",
                 columns := [{ name := "a", properties := { description := "ad" } },
                             { name := "ghost", properties := { description := "gd" } }],
                 properties := { description := "md" } },
               { name := "other", columns := [],
                 properties := { description := "od" } }] }

/-- The single output entry surviving the filter for `genResultW`. -/
def outDataW : GenModel :=
  { name := "m",
    columns := [{ name := "a", properties := { description := "ad" } }],
    properties := { description := "md" } }

/-- Witness for C9: at the concrete instance the output keeps model `m`
(selected and present in the MDL) and only its genuine non-relationship
column `a`; the invented column `ghost` and the unselected model `other`
are filtered away. -/
theorem c9_output_filtered_witness :
    (∃ m ∈ sdMdlW.models, m.name = "m" ∧ ["m"].contains m.name = true) ∧
    ∀ col ∈ outDataW.columns, ∃ m ∈ sdMdlW.models, m.name = "m" ∧
      ∃ mc ∈ m.columns, mc.relationship = none ∧ mc.name = col.name :=
  c9_output_filtered sdMdlW ["m"] (some genResultW) "m" outDataW (by decide)
